import Mathlib

/-!
Shallow embedding of `simplecast.py`: a single-file HTTP server with byte-range
support (`SingleFileHTTPRequestHandler`) and the interactive playback control
loop (`interactive`), together with proofs about the claims of the spec.
-/

namespace Simplecast

/-- Line 21: `FILE_COPY_BUFFER_SIZE = 64 * 1024`. -/
def FILE_COPY_BUFFER_SIZE : Nat := 64 * 1024

/-- File contents are modelled as lists of bytes. -/
abbrev Byte := Nat

/-- Python `int()` applied to a nonempty string of decimal digits. -/
def digitsToNat (ds : List Char) : Nat :=
  ds.foldl (fun a c => a * 10 + (c.toNat - 48)) 0

/-- The regex match of line 113: `re_compile(r"^bytes=(\d+)\-(\d+)?").search(h)`.
Anchored at the start of the string by `^`; characters after the match are
ignored.  Returns `(group1, group2?)` on success, `none` when the header does
not match the pattern. -/
def rangeRegexMatch (s : String) : Option (Nat × Option Nat) :=
  let cs := s.data
  if cs.take 6 = "bytes=".data then
    let rest := cs.drop 6
    match rest.takeWhile Char.isDigit with
    | [] => none
    | d1 =>
      match rest.dropWhile Char.isDigit with
      | '-' :: rest2 =>
        match rest2.takeWhile Char.isDigit with
        | [] => some (digitsToNat d1, none)
        | d2 => some (digitsToNat d1, some (digitsToNat d2))
      | _ => none
  else none

/-- `_GetRange` (lines 103-119): parse the optional `Range` header.  Python's
`if not range_header` also treats the empty string as absent. -/
def getRange (rangeHeader : Option String) : Option Nat × Option Nat :=
  match rangeHeader with
  | none => (none, none)
  | some s =>
    if s = "" then (none, none)
    else
      match rangeRegexMatch s with
      | none => (none, none)
      | some (a, b) => (some a, b)

/-- The observable outcome of one request: status code, the message of
`send_error` if any, the headers sent, and the body bytes written. -/
structure HttpResponse where
  status : Nat
  errorMessage : Option String
  headers : List (String × String)
  body : List Byte
deriving DecidableEq

/-- `send_error(404, "File not found")` (lines 64, 70). -/
def notFoundResponse : HttpResponse := ⟨404, some "File not found", [], []⟩

/-- `_SendRegularHeaders` (lines 121-128): headers of a 200 response.
`ctype` models `self.guess_type`, `lastModified` models
`self.date_time_string(file_stat.st_mtime)`, `size` is `file_stat[6]`. -/
def regularHeaders (ctype : String) (size : Nat) (lastModified : String) :
    List (String × String) :=
  [("Content-type", ctype),
   ("Content-Length", toString size),
   ("Last-Modified", lastModified)]

/-- The clamping of lines 136-137: `if self.range_end is None or
self.range_end >= file_size: self.range_end = file_size - 1`.  The result is
an `Int` because Python would produce `-1` for an empty file. -/
def clampEnd (rangeEnd : Option Nat) (fileSize : Nat) : Int :=
  match rangeEnd with
  | none => (fileSize : Int) - 1
  | some e => if (fileSize : Int) ≤ (e : Int) then (fileSize : Int) - 1 else (e : Int)

/-- `_SendRangeHeaders` (lines 130-143): headers of a 206 response, after the
clamping of `range_end`.  The header values mirror the f-strings of lines
138-141. -/
def rangeHeaders (ctype : String) (rangeStart : Nat) (rangeEnd : Int)
    (fileSize : Nat) (lastModified : String) : List (String × String) :=
  [("Content-type", ctype),
   ("Content-Range",
     "bytes " ++ toString rangeStart ++ "-" ++ toString rangeEnd ++ "/" ++
       toString fileSize),
   ("Content-Length", toString (1 + rangeEnd - rangeStart)),
   ("Last-Modified", lastModified)]

/-- One `source.read(n)` of line 94 with the file pointer at `pos`: returns up
to `n` bytes, the empty list at end of file. -/
def fileRead (file : List Byte) (pos n : Nat) : List Byte :=
  (file.drop pos).take n

/-- The `while remaining > 0` loop of `copy_range` (lines 93-101).  Python's
`remaining` is an int; the loop only runs while it is positive, so it is
tracked as a `Nat`.  Each iteration reads `min(FILE_COPY_BUFFER_SIZE,
remaining)` bytes, returns on an empty read, writes the chunk and decreases
`remaining` by its length. -/
def copyRangeAux (file : List Byte) (pos r : Nat) : List Byte :=
  if hr : r = 0 then []
  else
    if hc : fileRead file pos (min FILE_COPY_BUFFER_SIZE r) = [] then []
    else
      fileRead file pos (min FILE_COPY_BUFFER_SIZE r) ++
        copyRangeAux file
          (pos + (fileRead file pos (min FILE_COPY_BUFFER_SIZE r)).length)
          (r - (fileRead file pos (min FILE_COPY_BUFFER_SIZE r)).length)
termination_by r
decreasing_by
  have hlen : 0 < (fileRead file pos (min FILE_COPY_BUFFER_SIZE r)).length :=
    List.length_pos.mpr hc
  omega

/-- `copy_range` (lines 84-101): seek to `range_start`, then copy
`1 + range_end - range_start` bytes (a value that may be nonpositive, in which
case the loop body never runs).  Returns the body bytes written. -/
def copy_range (file : List Byte) (rangeStart : Nat) (rangeEnd : Int) :
    List Byte :=
  copyRangeAux file rangeStart (1 + rangeEnd - rangeStart).toNat

/-- `do_GET` together with `send_head` (lines 45-82):
`file = none` models `open(global_single_file, 'rb')` raising `OSError`;
otherwise `file = some bytes` is the file's contents.  A path other than
`"/file"` or an unopenable file yields the 404 of `send_head`.  With no parsed
range the whole file is sent with the regular headers (line 51, `copyfile`);
with a parsed range, `_SendRangeHeaders` clamps `range_end` and `copy_range`
streams the span. -/
def handleGET (path : String) (rangeHeader : Option String)
    (file : Option (List Byte)) (ctype lastModified : String) : HttpResponse :=
  if path ≠ "/file" then notFoundResponse
  else
    match file with
    | none => notFoundResponse
    | some bytes =>
      match getRange rangeHeader with
      | (none, _) =>
        ⟨200, none, regularHeaders ctype bytes.length lastModified, bytes⟩
      | (some s, re) =>
        let e := clampEnd re bytes.length
        ⟨206, none, rangeHeaders ctype s e bytes.length lastModified,
          copy_range bytes s e⟩

/-- `do_HEAD` (lines 33-37): same computation as `do_GET` but no body is
streamed. -/
def handleHEAD (path : String) (rangeHeader : Option String)
    (file : Option (List Byte)) (ctype lastModified : String) : HttpResponse :=
  let r := handleGET path rangeHeader file ctype lastModified
  { r with body := [] }

/-- A single incoming request: its path, its optional `Range` header, and the
openability/contents of `global_single_file` at the time of the request. -/
structure Request where
  path : String
  rangeHeader : Option String
  file : Option (List Byte)
deriving DecidableEq

/-- The server loop: every request is handled independently
(`serve_forever`, line 158); no request affects the handling of another. -/
def serveAll (reqs : List Request) (ctype lastModified : String) :
    List HttpResponse :=
  reqs.map fun r => handleGET r.path r.rangeHeader r.file ctype lastModified

/-! ### Core lemmas about the copy loop -/

/-- The copy loop writes exactly the first `r` bytes of the file from
position `pos` (fewer if the file ends first). -/
theorem copyRangeAux_eq (file : List Byte) :
    ∀ r pos, copyRangeAux file pos r = (file.drop pos).take r := by
  intro r
  induction r using Nat.strong_induction_on with
  | _ r ih =>
    intro pos
    rw [copyRangeAux]
    split
    · next hr => subst hr; simp
    · next hr =>
      split
      · next hc =>
        unfold fileRead at hc
        have hmin : 0 < min FILE_COPY_BUFFER_SIZE r := by
          have hb : 0 < FILE_COPY_BUFFER_SIZE := by norm_num [FILE_COPY_BUFFER_SIZE]
          omega
        have hlen := congrArg List.length hc
        rw [List.length_take] at hlen
        simp only [List.length_nil] at hlen
        have hnil : file.drop pos = [] := by
          apply List.length_eq_zero.mp
          omega
        rw [hnil, List.take_nil]
      · next hc =>
        have hpos : 0 < (fileRead file pos (min FILE_COPY_BUFFER_SIZE r)).length :=
          List.length_pos.mpr hc
        have hr0 : 0 < r := Nat.pos_of_ne_zero hr
        rw [ih (r - (fileRead file pos (min FILE_COPY_BUFFER_SIZE r)).length)
          (by omega) (pos + (fileRead file pos (min FILE_COPY_BUFFER_SIZE r)).length)]
        unfold fileRead
        rw [List.length_take]
        have hdd : file.drop (pos + min (min FILE_COPY_BUFFER_SIZE r) (file.drop pos).length)
            = (file.drop pos).drop (min (min FILE_COPY_BUFFER_SIZE r) (file.drop pos).length) := by
          rw [List.drop_drop]
        rw [hdd]
        rcases le_or_lt (file.drop pos).length (min FILE_COPY_BUFFER_SIZE r) with hcase | hcase
        · rw [Nat.min_eq_right hcase, List.drop_length, List.take_nil, List.append_nil,
            List.take_of_length_le hcase,
            List.take_of_length_le (le_trans hcase (Nat.min_le_right _ _))]
        · rw [Nat.min_eq_left (le_of_lt hcase), ← List.take_add]
          congr 1
          have := Nat.min_le_right FILE_COPY_BUFFER_SIZE r
          omega

/-- `copy_range file s e` is the slice of the file from `s` through `e`
(clipped at end of file), empty when `e < s`. -/
theorem copy_range_eq (file : List Byte) (s : Nat) (e : Int) :
    copy_range file s e = (file.drop s).take (1 + e - s).toNat := by
  unfold copy_range
  exact copyRangeAux_eq file _ s

/-- Evaluating a GET on `/file` with an open file and a parsed range. -/
theorem handleGET_ranged (hdr : Option String) (s : Nat) (re : Option Nat)
    (bytes : List Byte) (ct lm : String)
    (hparse : getRange hdr = (some s, re)) :
    handleGET "/file" hdr (some bytes) ct lm =
      ⟨206, none, rangeHeaders ct s (clampEnd re bytes.length) bytes.length lm,
        copy_range bytes s (clampEnd re bytes.length)⟩ := by
  unfold handleGET
  rw [hparse]
  rfl

/-- Evaluating a GET on `/file` with an open file and no parsed range. -/
theorem handleGET_noRange (hdr : Option String) (bytes : List Byte)
    (ct lm : String) (re : Option Nat) (hparse : getRange hdr = (none, re)) :
    handleGET "/file" hdr (some bytes) ct lm =
      ⟨200, none, regularHeaders ct bytes.length lm, bytes⟩ := by
  unfold handleGET
  rw [hparse]
  rfl

/-- A path other than `/file`, or an unopenable file, gets the 404 of
`send_head`. -/
theorem handleGET_404 (p : String) (rh : Option String)
    (f : Option (List Byte)) (ct lm : String) (h : p ≠ "/file" ∨ f = none) :
    handleGET p rh f ct lm = notFoundResponse := by
  rcases h with h | rfl
  · unfold handleGET
    rw [if_pos h]
  · unfold handleGET
    split
    · rfl
    · rfl

/-! ### Claim theorems -/

/-- C1: for every ranged GET on the served resource with parsed range start
`s` and end `e` satisfying `0 ≤ s ≤ e < content_length`, the server responds
with status 206, a Content-Range header equal to
`"bytes " ++ s ++ "-" ++ e ++ "/" ++ content_length`, a Content-Length header
equal to `e - s + 1`, and a body that is exactly the byte slice from `s`
through `e` of the source file. -/
theorem ranged_get_correct (hdr : Option String) (s e : Nat)
    (bytes : List Byte) (ct lm : String)
    (hparse : getRange hdr = (some s, some e))
    (hse : s ≤ e) (hlen : e < bytes.length) :
    (handleGET "/file" hdr (some bytes) ct lm).status = 206 ∧
    ("Content-Range",
        "bytes " ++ toString s ++ "-" ++ toString e ++ "/" ++
          toString bytes.length) ∈
      (handleGET "/file" hdr (some bytes) ct lm).headers ∧
    ("Content-Length", toString (e - s + 1)) ∈
      (handleGET "/file" hdr (some bytes) ct lm).headers ∧
    (handleGET "/file" hdr (some bytes) ct lm).body =
      (bytes.drop s).take (e - s + 1) := by
  have hce : clampEnd (some e) bytes.length = (e : Int) := by
    show (if (bytes.length : Int) ≤ (e : Int) then (bytes.length : Int) - 1
      else (e : Int)) = (e : Int)
    rw [if_neg]
    intro hcon
    have : bytes.length ≤ e := by exact_mod_cast hcon
    omega
  rw [handleGET_ranged hdr s (some e) bytes ct lm hparse, hce]
  refine ⟨rfl, ?_, ?_, ?_⟩
  · exact List.mem_cons_of_mem _ (List.mem_cons_self _ _)
  · have hv : ("Content-Length", toString (e - s + 1)) =
        ("Content-Length", toString (1 + (e : Int) - (s : Nat))) := by
      have h1 : (1 + (e : Int) - (s : Nat)) = ((e - s + 1 : Nat) : Int) := by
        omega
      rw [h1]
      rfl
    rw [hv]
    exact List.mem_cons_of_mem _
      (List.mem_cons_of_mem _ (List.mem_cons_self _ _))
  · rw [copy_range_eq]
    have h2 : (1 + (e : Int) - (s : Nat)).toNat = e - s + 1 := by omega
    rw [h2]

/-- C6: for every ranged request whose parsed end is absent or at least
`content_length`, the server substitutes `end = content_length - 1` before
computing Content-Range and Content-Length; an open-ended range gives
Content-Range `"bytes " ++ s ++ "-" ++ (content_length - 1) ++ "/" ++
content_length`. -/
theorem open_end_clamped (hdr : Option String) (s : Nat) (re : Option Nat)
    (bytes : List Byte) (ct lm : String)
    (hparse : getRange hdr = (some s, re))
    (hend : re = none ∨ ∃ e, re = some e ∧ bytes.length ≤ e) :
    clampEnd re bytes.length = (bytes.length : Int) - 1 ∧
    ("Content-Range",
        "bytes " ++ toString s ++ "-" ++ toString ((bytes.length : Int) - 1) ++
          "/" ++ toString bytes.length) ∈
      (handleGET "/file" hdr (some bytes) ct lm).headers ∧
    ("Content-Length", toString ((bytes.length : Int) - s)) ∈
      (handleGET "/file" hdr (some bytes) ct lm).headers := by
  have hclamp : clampEnd re bytes.length = (bytes.length : Int) - 1 := by
    rcases hend with rfl | ⟨e, rfl, he⟩
    · rfl
    · show (if (bytes.length : Int) ≤ (e : Int) then (bytes.length : Int) - 1
        else (e : Int)) = (bytes.length : Int) - 1
      rw [if_pos (by exact_mod_cast he)]
  rw [handleGET_ranged hdr s re bytes ct lm hparse, hclamp]
  refine ⟨rfl, ?_, ?_⟩
  · exact List.mem_cons_of_mem _ (List.mem_cons_self _ _)
  · have hv : ("Content-Length", toString ((bytes.length : Int) - s)) =
        ("Content-Length",
          toString (1 + ((bytes.length : Int) - 1) - (s : Nat))) := by
      have h1 : 1 + ((bytes.length : Int) - 1) - (s : Nat) =
          (bytes.length : Int) - s := by ring
      rw [h1]
    rw [hv]
    exact List.mem_cons_of_mem _
      (List.mem_cons_of_mem _ (List.mem_cons_self _ _))

/-- C7: a GET whose Range header is absent or does not match the pattern
`bytes=<digits>-<digits>?` is treated as "no range requested": the parser
yields `(none, none)` and the server responds 200 with the whole file as the
body, byte for byte. -/
theorem no_range_whole_file (hdr : Option String) (bytes : List Byte)
    (ct lm : String)
    (h : hdr = none ∨ ∃ s, hdr = some s ∧ rangeRegexMatch s = none) :
    getRange hdr = (none, none) ∧
    handleGET "/file" hdr (some bytes) ct lm =
      ⟨200, none, regularHeaders ct bytes.length lm, bytes⟩ := by
  have hg : getRange hdr = (none, none) := by
    rcases h with rfl | ⟨s, rfl, hm⟩
    · rfl
    · show (if s = "" then ((none, none) : Option Nat × Option Nat)
        else match rangeRegexMatch s with
        | none => (none, none)
        | some (a, b) => (some a, b)) = (none, none)
      by_cases hs : s = ""
      · rw [if_pos hs]
      · rw [if_neg hs, hm]
  exact ⟨hg, handleGET_noRange hdr bytes ct lm none hg⟩

/-- C8: a request for a path that is not the configured resource, or a
request whose underlying file cannot be opened, gets the 404 "File not found"
response; the condition is per-request and every other request in the
server's stream is handled exactly as it would be on its own. -/
theorem not_found_per_request (p : String) (rh : Option String)
    (f : Option (List Byte)) (pre post : List Request) (ct lm : String)
    (h : p ≠ "/file" ∨ f = none) :
    handleGET p rh f ct lm = notFoundResponse ∧
    serveAll (pre ++ ⟨p, rh, f⟩ :: post) ct lm =
      serveAll pre ct lm ++ notFoundResponse :: serveAll post ct lm := by
  have h404 : handleGET p rh f ct lm = notFoundResponse :=
    handleGET_404 p rh f ct lm h
  refine ⟨h404, ?_⟩
  unfold serveAll
  rw [List.map_append, List.map_cons]
  simp only []
  rw [h404]

/-- C10: `copy_range` is a total function (its loop terminates: every
iteration strictly shrinks the remaining count or stops on an empty read) and
it writes at most `max 0 (end - start + 1)` bytes; when `end < start` it
writes no body bytes at all. -/
theorem copy_range_bounded (file : List Byte) (s : Nat) (e : Int) :
    ((copy_range file s e).length : Int) ≤ max 0 (e - (s : Int) + 1) ∧
    (e < (s : Int) → copy_range file s e = []) := by
  constructor
  · rw [copy_range_eq]
    have h := List.length_take (1 + e - (s : Nat)).toNat (file.drop s)
    omega
  · intro hlt
    rw [copy_range_eq]
    have h0 : (1 + e - (s : Nat)).toNat = 0 := by omega
    rw [h0]
    exact List.take_zero _

/-! ### Witnesses for the claim theorems with hypotheses -/

/-- Witness for C1 at the header `bytes=2-5` on a ten-byte file. -/
theorem ranged_get_correct_witness :
    getRange (some "bytes=2-5") = (some 2, some 5) ∧ 2 ≤ 5 ∧
    5 < ([10, 11, 12, 13, 14, 15, 16, 17, 18, 19] : List Byte).length ∧
    ((handleGET "/file" (some "bytes=2-5")
        (some [10, 11, 12, 13, 14, 15, 16, 17, 18, 19]) "video/mp4" "Mon").status
        = 206 ∧
      ("Content-Range", "bytes " ++ toString 2 ++ "-" ++ toString 5 ++ "/" ++
          toString ([10, 11, 12, 13, 14, 15, 16, 17, 18, 19] : List Byte).length) ∈
        (handleGET "/file" (some "bytes=2-5")
          (some [10, 11, 12, 13, 14, 15, 16, 17, 18, 19]) "video/mp4" "Mon").headers ∧
      ("Content-Length", toString (5 - 2 + 1)) ∈
        (handleGET "/file" (some "bytes=2-5")
          (some [10, 11, 12, 13, 14, 15, 16, 17, 18, 19]) "video/mp4" "Mon").headers ∧
      (handleGET "/file" (some "bytes=2-5")
          (some [10, 11, 12, 13, 14, 15, 16, 17, 18, 19]) "video/mp4" "Mon").body =
        (([10, 11, 12, 13, 14, 15, 16, 17, 18, 19] : List Byte).drop 2).take
          (5 - 2 + 1)) :=
  ⟨by decide, by decide, by decide,
    ranged_get_correct (some "bytes=2-5") 2 5
      [10, 11, 12, 13, 14, 15, 16, 17, 18, 19] "video/mp4" "Mon"
      (by decide) (by decide) (by decide)⟩

/-- Witness for C6 at the open-ended header `bytes=7-` on a ten-byte file. -/
theorem open_end_clamped_witness :
    getRange (some "bytes=7-") = (some 7, none) ∧
    (clampEnd none ([10, 11, 12, 13, 14, 15, 16, 17, 18, 19] : List Byte).length
        = (([10, 11, 12, 13, 14, 15, 16, 17, 18, 19] : List Byte).length : Int) - 1 ∧
      ("Content-Range", "bytes " ++ toString 7 ++ "-" ++
          toString ((([10, 11, 12, 13, 14, 15, 16, 17, 18, 19] : List Byte).length : Int) - 1)
          ++ "/" ++ toString ([10, 11, 12, 13, 14, 15, 16, 17, 18, 19] : List Byte).length) ∈
        (handleGET "/file" (some "bytes=7-")
          (some [10, 11, 12, 13, 14, 15, 16, 17, 18, 19]) "video/mp4" "Mon").headers ∧
      ("Content-Length",
          toString ((([10, 11, 12, 13, 14, 15, 16, 17, 18, 19] : List Byte).length : Int) - 7)) ∈
        (handleGET "/file" (some "bytes=7-")
          (some [10, 11, 12, 13, 14, 15, 16, 17, 18, 19]) "video/mp4" "Mon").headers) :=
  ⟨by decide,
    open_end_clamped (some "bytes=7-") 7 none
      [10, 11, 12, 13, 14, 15, 16, 17, 18, 19] "video/mp4" "Mon"
      (by decide) (Or.inl rfl)⟩

/-- Witness for C7 at the malformed header `units=0-5`. -/
theorem no_range_whole_file_witness :
    rangeRegexMatch "units=0-5" = none ∧
    (getRange (some "units=0-5") = (none, none) ∧
      handleGET "/file" (some "units=0-5") (some [7, 8, 9]) "video/mp4" "Mon" =
        ⟨200, none,
          regularHeaders "video/mp4" ([7, 8, 9] : List Byte).length "Mon",
          [7, 8, 9]⟩) :=
  ⟨by decide,
    no_range_whole_file (some "units=0-5") [7, 8, 9] "video/mp4" "Mon"
      (Or.inr ⟨"units=0-5", rfl, by decide⟩)⟩

/-- Witness for C8 at the unknown path `/primary` between two good requests. -/
theorem not_found_per_request_witness :
    handleGET "/primary" none (some [1, 2, 3]) "video/mp4" "Mon" =
        notFoundResponse ∧
    serveAll ([⟨"/file", none, some [1, 2, 3]⟩] ++
        ⟨"/primary", none, some [1, 2, 3]⟩ :: [⟨"/file", none, some [1, 2, 3]⟩])
        "video/mp4" "Mon" =
      serveAll [⟨"/file", none, some [1, 2, 3]⟩] "video/mp4" "Mon" ++
        notFoundResponse ::
          serveAll [⟨"/file", none, some [1, 2, 3]⟩] "video/mp4" "Mon" :=
  not_found_per_request "/primary" none (some [1, 2, 3])
    [⟨"/file", none, some [1, 2, 3]⟩] [⟨"/file", none, some [1, 2, 3]⟩]
    "video/mp4" "Mon" (Or.inl (by decide))

/-- Witness for C10 at an inverted range `start = 5`, `end = 1`. -/
theorem copy_range_bounded_witness :
    (((copy_range [1, 2, 3, 4, 5, 6] 5 1).length : Int) ≤
      max 0 (1 - (5 : Int) + 1)) ∧
    copy_range [1, 2, 3, 4, 5, 6] 5 1 = [] :=
  ⟨(copy_range_bounded [1, 2, 3, 4, 5, 6] 5 1).1,
    (copy_range_bounded [1, 2, 3, 4, 5, 6] 5 1).2 (by norm_num)⟩

/-! ### Corrected claims: C2, C3, C9 -/

/-- C2 counterexample: the code serves `/file`, not `/primary` or
`/subtitles`; a GET for either of the spec's two logical paths is a 404, not
a 200 serving the resource. -/
theorem two_paths_counterexample :
    handleGET "/primary" none (some [1, 2, 3]) "video/mp4" "Mon" =
        notFoundResponse ∧
    (handleGET "/primary" none (some [1, 2, 3]) "video/mp4" "Mon").status ≠
        200 ∧
    handleGET "/subtitles" none (some [1, 2, 3]) "text/vtt" "Mon" =
        notFoundResponse ∧
    handleHEAD "/primary" none (some [1, 2, 3]) "video/mp4" "Mon" =
        notFoundResponse := by
  decide

/-- C2 (amended): the server serves exactly one logical path, `/file`; a GET
or HEAD for `/file` returns the single configured resource with status 200,
and every other path — `/primary` and `/subtitles` included — yields 404.  No
subtitle resource exists. -/
theorem single_path_served (path : String) (hdr : Option String)
    (bytes : List Byte) (ct lm : String) :
    (path ≠ "/file" → handleGET path hdr (some bytes) ct lm =
        notFoundResponse) ∧
    handleGET "/file" none (some bytes) ct lm =
      ⟨200, none, regularHeaders ct bytes.length lm, bytes⟩ ∧
    handleHEAD "/file" none (some bytes) ct lm =
      ⟨200, none, regularHeaders ct bytes.length lm, []⟩ := by
  refine ⟨fun hp => handleGET_404 path hdr (some bytes) ct lm (Or.inl hp),
    handleGET_noRange none bytes ct lm none rfl, ?_⟩
  unfold handleHEAD
  rw [handleGET_noRange none bytes ct lm none rfl]

/-- Witness for the amended C2 at the path `/primary`. -/
theorem single_path_served_witness :
    handleGET "/primary" (some "bytes=0-1") (some [9, 9]) "video/mp4" "Mon" =
        notFoundResponse ∧
    handleGET "/file" none (some [9, 9]) "video/mp4" "Mon" =
      ⟨200, none, regularHeaders "video/mp4" 2 "Mon", [9, 9]⟩ ∧
    handleHEAD "/file" none (some [9, 9]) "video/mp4" "Mon" =
      ⟨200, none, regularHeaders "video/mp4" 2 "Mon", []⟩ :=
  ⟨(single_path_served "/primary" (some "bytes=0-1") [9, 9] "video/mp4"
      "Mon").1 (by decide),
    (single_path_served "/primary" (some "bytes=0-1") [9, 9] "video/mp4"
      "Mon").2.1,
    (single_path_served "/primary" (some "bytes=0-1") [9, 9] "video/mp4"
      "Mon").2.2⟩

/-- C3 counterexample: a successful 200 response carries only Content-type,
Content-Length and Last-Modified; there is no `Accept-Ranges: bytes` header
and no cross-origin header. -/
theorem cors_accept_ranges_counterexample :
    (handleGET "/file" none (some [0]) "video/mp4" "Mon").status = 200 ∧
    (handleGET "/file" none (some [0]) "video/mp4" "Mon").headers.map
        Prod.fst = ["Content-type", "Content-Length", "Last-Modified"] ∧
    "Accept-Ranges" ∉
      (handleGET "/file" none (some [0]) "video/mp4" "Mon").headers.map
        Prod.fst ∧
    "Access-Control-Allow-Origin" ∉
      (handleGET "/file" none (some [0]) "video/mp4" "Mon").headers.map
        Prod.fst := by
  decide

/-- C3 (amended): every successful response carries exactly Content-type,
Content-Length and Last-Modified — with Content-Range inserted for a 206 —
and in particular no `Accept-Ranges` header and no cross-origin header. -/
theorem response_headers_exact (path : String) (hdr : Option String)
    (file : Option (List Byte)) (ct lm : String) :
    ((handleGET path hdr file ct lm).status = 200 →
      (handleGET path hdr file ct lm).headers.map Prod.fst =
        ["Content-type", "Content-Length", "Last-Modified"]) ∧
    ((handleGET path hdr file ct lm).status = 206 →
      (handleGET path hdr file ct lm).headers.map Prod.fst =
        ["Content-type", "Content-Range", "Content-Length",
          "Last-Modified"]) := by
  by_cases hp : path = "/file"
  · subst hp
    cases file with
    | none =>
      rw [handleGET_404 "/file" hdr none ct lm (Or.inr rfl)]
      exact ⟨fun h => absurd (show (404 : Nat) = 200 from h) (by decide),
        fun h => absurd (show (404 : Nat) = 206 from h) (by decide)⟩
    | some bytes =>
      rcases hg : getRange hdr with ⟨rs, re⟩
      cases rs with
      | none =>
        rw [handleGET_noRange hdr bytes ct lm re hg]
        exact ⟨fun _ => rfl,
          fun h => absurd (show (200 : Nat) = 206 from h) (by decide)⟩
      | some s =>
        rw [handleGET_ranged hdr s re bytes ct lm hg]
        exact ⟨fun h => absurd (show (206 : Nat) = 200 from h) (by decide),
          fun _ => rfl⟩
  · rw [handleGET_404 path hdr file ct lm (Or.inl hp)]
    exact ⟨fun h => absurd (show (404 : Nat) = 200 from h) (by decide),
      fun h => absurd (show (404 : Nat) = 206 from h) (by decide)⟩

/-- Witness for the amended C3 on a 200 and on a 206 response. -/
theorem response_headers_exact_witness :
    ((handleGET "/file" none (some [0]) "video/mp4" "Mon").status = 200 ∧
      (handleGET "/file" none (some [0]) "video/mp4" "Mon").headers.map
        Prod.fst = ["Content-type", "Content-Length", "Last-Modified"]) ∧
    ((handleGET "/file" (some "bytes=0-0") (some [0]) "video/mp4"
        "Mon").status = 206 ∧
      (handleGET "/file" (some "bytes=0-0") (some [0]) "video/mp4"
          "Mon").headers.map Prod.fst =
        ["Content-type", "Content-Range", "Content-Length",
          "Last-Modified"]) :=
  ⟨⟨by decide,
      (response_headers_exact "/file" none (some [0]) "video/mp4" "Mon").1
        (by decide)⟩,
    ⟨by decide,
      (response_headers_exact "/file" (some "bytes=0-0") (some [0])
        "video/mp4" "Mon").2 (by decide)⟩⟩

/-- C9 counterexample: `_GetRange` does not validate `end ≥ start`: the
header `bytes=5-1` parses to start 5, end 1, and the server builds a 206
response from it, with an inverted Content-Range and a negative
Content-Length of -3. -/
theorem range_invariant_counterexample :
    getRange (some "bytes=5-1") = (some 5, some 1) ∧
    (handleGET "/file" (some "bytes=5-1") (some (List.replicate 10 0))
        "video/mp4" "Mon").status = 206 ∧
    ("Content-Range", "bytes 5-1/10") ∈
      (handleGET "/file" (some "bytes=5-1") (some (List.replicate 10 0))
        "video/mp4" "Mon").headers ∧
    ("Content-Length", "-3") ∈
      (handleGET "/file" (some "bytes=5-1") (some (List.replicate 10 0))
        "video/mp4" "Mon").headers := by
  decide

/-- C9 (amended): when `end` is present the parser keeps it even if
`end < start`; only `end` absent or `end ≥ content_length` is replaced by
`content_length - 1`.  With `end < start < content_length` the server still
builds a 206 response whose Content-Length `1 + end - start` is nonpositive,
and `copy_range` then writes no body bytes. -/
theorem range_invariant_amended (hdr : Option String) (s e : Nat)
    (bytes : List Byte) (ct lm : String)
    (hparse : getRange hdr = (some s, some e))
    (hlt : e < s) (hlen : e < bytes.length) :
    handleGET "/file" hdr (some bytes) ct lm =
      ⟨206, none, rangeHeaders ct s (e : Int) bytes.length lm, []⟩ ∧
    ("Content-Length", toString (1 + (e : Int) - (s : Nat))) ∈
      (handleGET "/file" hdr (some bytes) ct lm).headers ∧
    1 + (e : Int) - (s : Nat) ≤ 0 := by
  have hce : clampEnd (some e) bytes.length = (e : Int) := by
    show (if (bytes.length : Int) ≤ (e : Int) then (bytes.length : Int) - 1
      else (e : Int)) = (e : Int)
    rw [if_neg]
    intro hcon
    have : bytes.length ≤ e := by exact_mod_cast hcon
    omega
  have hbody : copy_range bytes s (e : Int) = [] := by
    rw [copy_range_eq]
    have h0 : (1 + (e : Int) - (s : Nat)).toNat = 0 := by omega
    rw [h0]
    exact List.take_zero _
  rw [handleGET_ranged hdr s (some e) bytes ct lm hparse, hce, hbody]
  refine ⟨rfl, ?_, by omega⟩
  exact List.mem_cons_of_mem _
    (List.mem_cons_of_mem _ (List.mem_cons_self _ _))

/-- Witness for the amended C9 at `bytes=5-1` on a ten-byte file. -/
theorem range_invariant_amended_witness :
    getRange (some "bytes=5-1") = (some 5, some 1) ∧ 1 < 5 ∧
    1 < (List.replicate 10 (0 : Byte)).length ∧
    (handleGET "/file" (some "bytes=5-1") (some (List.replicate 10 0))
        "video/mp4" "Mon" =
      ⟨206, none,
        rangeHeaders "video/mp4" 5 (1 : Int)
          (List.replicate 10 (0 : Byte)).length "Mon", []⟩ ∧
    ("Content-Length", toString (1 + (1 : Int) - (5 : Nat))) ∈
      (handleGET "/file" (some "bytes=5-1") (some (List.replicate 10 0))
        "video/mp4" "Mon").headers ∧
    1 + (1 : Int) - (5 : Nat) ≤ 0) :=
  ⟨by decide, by decide, by decide,
    range_invariant_amended (some "bytes=5-1") 5 1 (List.replicate 10 0)
      "video/mp4" "Mon" (by decide) (by decide) (by decide)⟩

/-! ### The interactive control loop: teardown (C4) and the seek tick (C5) -/

/-- The state touched by `interactive`'s teardown (lines 235-251): the
`running` flag and one counter per side effect of `on_exit` —
`media_controller.stop()`, `quit_app()`, `httpd.terminate()`, `httpd.join()`
and `tcsetattr` restoring the terminal. -/
structure CastState where
  mediaStops : Nat
  appQuits : Nat
  serverTerminates : Nat
  serverJoins : Nat
  termiosRestores : Nat
  running : Bool
deriving DecidableEq

/-- The state at line 235: `running = True`, nothing torn down yet. -/
def initialCastState : CastState := ⟨0, 0, 0, 0, 0, true⟩

/-- `on_exit` (lines 241-249): stop the media, quit the app, terminate and
join the server thread, clear `running`, restore the terminal.  There is no
guard against running twice. -/
def on_exit (s : CastState) : CastState :=
  { mediaStops := s.mediaStops + 1
    appQuits := s.appQuits + 1
    serverTerminates := s.serverTerminates + 1
    serverJoins := s.serverJoins + 1
    termiosRestores := s.termiosRestores + 1
    running := false }

/-- What happens on one iteration of the `while` loop of lines 254-292 as far
as teardown is concerned: either nothing (a key press, a seek, a poll — none
of them touch the teardown state) or the asynchronous
`channel_disconnected` callback fires, which line 251 binds to `on_exit`. -/
inductive TickEvent where
  | normal
  | disconnect
deriving DecidableEq

/-- The `while not controller.status.player_is_idle and running` loop (line
254): it keeps iterating while `running` holds, the disconnect callback
invoking `on_exit` when it fires; the event list ending models the player
going idle. -/
def interactiveLoop : List TickEvent → CastState → CastState
  | [], s => s
  | ev :: rest, s =>
    if s.running then
      match ev with
      | TickEvent.disconnect => interactiveLoop rest (on_exit s)
      | TickEvent.normal => interactiveLoop rest s
    else s

/-- `interactive` from the loop onwards: run the loop, then line 293 executes
`return on_exit()` unconditionally. -/
def interactiveRun (events : List TickEvent) (s : CastState) : CastState :=
  on_exit (interactiveLoop events s)

/-- Once `running` is false the loop does nothing more. -/
theorem interactiveLoop_stopped :
    ∀ (events : List TickEvent) (s : CastState), s.running = false →
      interactiveLoop events s = s
  | [], _, _ => rfl
  | _ :: _, s, h => by
    unfold interactiveLoop
    rw [h]
    simp

/-- The loop applies `on_exit` exactly once if a disconnect fires, never
otherwise. -/
theorem interactiveLoop_spec :
    ∀ (events : List TickEvent) (s : CastState), s.running = true →
      interactiveLoop events s =
        if TickEvent.disconnect ∈ events then on_exit s else s := by
  intro events
  induction events with
  | nil =>
    intro s _
    simp [interactiveLoop]
  | cons ev rest ih =>
    intro s h
    cases ev with
    | disconnect =>
      unfold interactiveLoop
      rw [h]
      simp only [if_true]
      rw [interactiveLoop_stopped rest (on_exit s) rfl]
      simp
    | normal =>
      unfold interactiveLoop
      rw [h]
      simp only [if_true]
      rw [ih s h]
      simp [List.mem_cons]

/-- C4 counterexample: when the disconnect callback fires and the loop's own
termination path then runs, every teardown action — including joining the
server thread and restoring the terminal — executes twice, not once. -/
theorem lifecycle_once_counterexample :
    (interactiveRun [TickEvent.disconnect] initialCastState).serverJoins = 2 ∧
    (interactiveRun [TickEvent.disconnect]
        initialCastState).termiosRestores = 2 ∧
    (interactiveRun [TickEvent.disconnect] initialCastState).mediaStops = 2 ∧
    (interactiveRun [TickEvent.disconnect] initialCastState).serverJoins ≠
      1 := by
  decide

/-- C4 (amended): teardown is unguarded.  A session where the disconnect
callback never fires tears down exactly once (line 293); a session where it
does fire tears down twice — once in the callback and once more at the
loop's return. -/
theorem lifecycle_runs (events : List TickEvent) :
    (interactiveRun events initialCastState).serverJoins =
      (if TickEvent.disconnect ∈ events then 2 else 1) ∧
    (interactiveRun events initialCastState).mediaStops =
      (if TickEvent.disconnect ∈ events then 2 else 1) ∧
    (interactiveRun events initialCastState).appQuits =
      (if TickEvent.disconnect ∈ events then 2 else 1) ∧
    (interactiveRun events initialCastState).serverTerminates =
      (if TickEvent.disconnect ∈ events then 2 else 1) ∧
    (interactiveRun events initialCastState).termiosRestores =
      (if TickEvent.disconnect ∈ events then 2 else 1) := by
  unfold interactiveRun
  rw [interactiveLoop_spec events initialCastState rfl]
  by_cases hd : TickEvent.disconnect ∈ events
  · rw [if_pos hd]
    simp [on_exit, initialCastState, hd]
  · rw [if_neg hd]
    simp [on_exit, initialCastState, hd]

/-- The result of one iteration of the interactive loop (lines 257-292) in
which a seek key was read.  `seekIssued` is the argument passed to
`controller.seek` at line 272; `newCurrent` is the value of the loop variable
`current` when the iteration ends. -/
structure SeekTickResult where
  seekIssued : ℚ
  newCurrent : ℚ
deriving DecidableEq

/-- One loop iteration handling a seek key, from the source lines 257-292.
`current0` is the loop's play-head variable entering the tick, `delay` is
`time() - start`, `total` the media duration, `forward` tells `'[C'` (right)
from `'[D'` (left), and `polled` is the value
`caster.media_controller.status.current_time` holds at line 292 — the
position reported by the receiver, which the seek just issued has not yet
changed. -/
def seekTick (current0 delay polled total : ℚ) (forward : Bool) :
    SeekTickResult :=
  let current1 := current0 + delay
  let i : ℚ := if forward then 30 else -30
  let target := min (max (current1 + i) 0) total
  { seekIssued := target, newCurrent := polled }

/-- C5 counterexample: with play-head estimate 100, zero delay, a polled
position of 100 and duration 1000, a forward seek issues a seek to 130 but
leaves the loop's play-head variable at the polled pre-seek value 100, not at
the clamped target 130. -/
theorem seek_estimate_counterexample :
    (seekTick 100 0 100 1000 true).newCurrent = 100 ∧
    min (max ((100 : ℚ) + 0 + 30) 0) 1000 = 130 ∧
    (seekTick 100 0 100 1000 true).newCurrent ≠
      min (max ((100 : ℚ) + 0 + 30) 0) 1000 := by
  refine ⟨rfl, by norm_num, ?_⟩
  intro h
  rw [show min (max ((100 : ℚ) + 0 + 30) 0) 1000 = 130 by norm_num] at h
  exact absurd h (by norm_num [seekTick])

/-- C5 (amended): the seek key computes the clamped target
`clamp(estimate + 30 or - 30, 0, total)` and issues the seek with it (lines
271-272), but line 292 then overwrites the loop's play-head variable with the
last polled `status.current_time`; the value used by the following iterations
is the polled position, not the clamped target. -/
theorem seek_tick_behaviour (current0 delay polled total : ℚ)
    (forward : Bool) :
    (seekTick current0 delay polled total forward).seekIssued =
      min (max (current0 + delay + (if forward then (30 : ℚ) else -30)) 0)
        total ∧
    (seekTick current0 delay polled total forward).newCurrent = polled :=
  ⟨rfl, rfl⟩

end Simplecast
